import Mathlib

/-!
Verification development for the TempusSonus tempo-synchronization engine.

The definitions below are a shallow embedding of the TypeScript sources:
`services/rhythmEngine.ts` (measure generation), `services/audioService.ts`
(lookahead audio scheduler with pending configuration changes), the
`ScoreConveyor` animation loop (visual sync consumer), and the static
rudiment/time-signature catalogs from `constants.ts`.  JavaScript numbers
are modelled as rationals; nullable fields become `Option`.
-/

namespace TempusSonus

/-! ### Data model (`types.ts`) -/

/-- `Subdivision` enum.  The numeric payloads (4, 8, 16, 12) from the source
never participate in arithmetic, only in identity tests, so a plain inductive
suffices; all enum values are nonzero, hence truthy in the source. -/
inductive Subdivision where
  | Quarter
  | Eighth
  | Sixteenth
  | Triplet
deriving DecidableEq, Repr

/-- `Hand = 'R' | 'L' | '-'`; `Rest` stands for `'-'`. -/
inductive Hand where
  | R
  | L
  | Rest
deriving DecidableEq, Repr

/-- `NoteType = 'normal' | 'accent' | 'ghost' | 'flam' | 'drag'`. -/
inductive NoteType where
  | normal
  | accent
  | ghost
  | flam
  | drag
deriving DecidableEq, Repr

structure TimeSignature where
  top : Nat
  bottom : Nat
  name : String
deriving DecidableEq, Repr

/-- One entry of a rudiment pattern: either a bare hand string or a
`{hand, type}` cell. -/
inductive PatternItem where
  | bare (h : Hand)
  | cell (h : Hand) (t : NoteType)
deriving DecidableEq, Repr

structure Rudiment where
  id : String
  name : String
  defaultSubdivision : Subdivision
  pattern : List PatternItem
deriving DecidableEq, Repr

structure Note where
  id : String
  hand : Hand
  type : NoteType
  subdivisionIndex : Nat
deriving DecidableEq, Repr

structure Measure where
  id : Nat
  timeSignature : TimeSignature
  notes : List Note
deriving DecidableEq, Repr

/-! ### Catalogs (`constants.ts`) -/

def TIME_SIGNATURES : List TimeSignature :=
  [⟨4, 4, "4/4"⟩, ⟨3, 4, "3/4"⟩, ⟨6, 8, "6/8"⟩]

def pR : PatternItem := .bare .R

def pL : PatternItem := .bare .L

def singleStrokeRoll : Rudiment :=
  ⟨"single_stroke_roll", "Single Stroke", .Sixteenth, [pR, pL]⟩

def doubleStrokeRoll : Rudiment :=
  ⟨"double_stroke_roll", "Double Stroke", .Sixteenth, [pR, pR, pL, pL]⟩

def singleParadiddle : Rudiment :=
  ⟨"single_paradiddle", "Paradiddle", .Sixteenth,
    [.cell .R .accent, pL, pR, pR, .cell .L .accent, pR, pL, pL]⟩

def flamRudiment : Rudiment :=
  ⟨"flam", "Flam", .Quarter, [.cell .R .flam, .cell .L .flam]⟩

def dragRudiment : Rudiment :=
  ⟨"drag", "Drag", .Quarter, [.cell .R .drag, .cell .L .drag]⟩

def doubleParadiddle : Rudiment :=
  ⟨"double_paradiddle", "Dbl Paradiddle", .Sixteenth,
    [.cell .R .accent, pL, pR, pL, pR, pR,
     .cell .L .accent, pR, pL, pR, pL, pL]⟩

def tripleParadiddle : Rudiment :=
  ⟨"triple_paradiddle", "Trp Paradiddle", .Sixteenth,
    [.cell .R .accent, pL, pR, pL, pR, pL, pR, pR,
     .cell .L .accent, pR, pL, pR, pL, pR, pL, pL]⟩

def flamAccent : Rudiment :=
  ⟨"flam_accent", "Flam Accent", .Triplet,
    [.cell .R .flam, pL, pR, .cell .L .flam, pR, pL]⟩

def flamTap : Rudiment :=
  ⟨"flam_tap", "Flam Tap", .Sixteenth,
    [.cell .R .flam, pR, .cell .L .flam, pL]⟩

def singleDragTap : Rudiment :=
  ⟨"single_drag_tap", "Sgl Drag Tap", .Sixteenth,
    [.cell .R .drag, pL, .cell .L .drag, pR]⟩

def paradiddleDiddle : Rudiment :=
  ⟨"paradiddle_diddle", "Para-Diddle", .Sixteenth,
    [.cell .R .accent, pL, pR, pR, pL, pL,
     .cell .L .accent, pR, pL, pL, pR, pR]⟩

def doubleDragTap : Rudiment :=
  ⟨"double_drag_tap", "Dbl Drag Tap", .Sixteenth,
    [.cell .R .drag, pR, pL, .cell .L .drag, pL, pR]⟩

def lesson25 : Rudiment :=
  ⟨"lesson_25", "Lesson 25", .Sixteenth,
    [.cell .R .accent, pL, pR, pR, .cell .L .accent, pR, pL, pL]⟩

def singleRatamacue : Rudiment :=
  ⟨"single_ratamacue", "Sgl Ratamacue", .Triplet,
    [.cell .R .drag, pL, pR, .cell .L .drag, pR, pL]⟩

def herta : Rudiment :=
  ⟨"herta", "Herta", .Sixteenth,
    [.cell .R .accent, pR, pL, pR, .cell .L .accent, pL, pR, pL]⟩

def invertedDoubleStroke : Rudiment :=
  ⟨"inverted_double_stroke", "Inv Double", .Sixteenth,
    [.cell .R .accent, pR, pL, pL, pR, pL,
     .cell .L .accent, pL, pR, pR, pL, pR]⟩

def doubleRatamacue : Rudiment :=
  ⟨"double_ratamacue", "Dbl Ratamacue", .Triplet,
    [.cell .R .drag, pL, pR, pL, pR,
     .cell .L .drag, pR, pL, pR, pL]⟩

def tripleRatamacue : Rudiment :=
  ⟨"triple_ratamacue", "Trp Ratamacue", .Triplet,
    [.cell .R .drag, pL, pR, pL, pR, pL, pR,
     .cell .L .drag, pR, pL, pR, pL, pR, pL]⟩

def RUDIMENTS : List Rudiment :=
  [singleStrokeRoll, doubleStrokeRoll, singleParadiddle, flamRudiment,
   dragRudiment, doubleParadiddle, tripleParadiddle, flamAccent, flamTap,
   singleDragTap, paradiddleDiddle, doubleDragTap, lesson25,
   singleRatamacue, herta, invertedDoubleStroke, doubleRatamacue,
   tripleRatamacue]

/-! ### Measure generation (`services/rhythmEngine.ts`) -/

/-- `RUDIMENTS.find((r) => r.id === rudimentId) || RUDIMENTS[0]`. -/
def findRudiment (rudimentId : String) : Rudiment :=
  (RUDIMENTS.find? (fun r => r.id == rudimentId)).getD singleStrokeRoll

/-- The `slotsPerBeat` chain in `generateMeasure`: it is initialized to 0 and
only the `Sixteenth`, `Triplet` and `Eighth` branches assign to it, so
`Quarter` leaves the initial 0. -/
def slotsPerBeatOf (subdivision : Subdivision) : Nat :=
  match subdivision with
  | .Sixteenth => 4
  | .Triplet => 3
  | .Eighth => 2
  | .Quarter => 0

/-- The `totalSlots` chain in `generateMeasure`: initialized to 0, assigned in
the `bottom === 4` and `bottom === 8` branches only. -/
def totalSlotsOf (timeSig : TimeSignature) (subdivision : Subdivision) : Nat :=
  if timeSig.bottom = 4 then
    timeSig.top * slotsPerBeatOf subdivision
  else if timeSig.bottom = 8 then
    match subdivision with
    | .Sixteenth => timeSig.top * 2
    | .Eighth => timeSig.top
    | .Triplet => timeSig.top * 3
    | .Quarter => 0
  else 0

/-- Unwrapping a pattern item into `(hand, type)`: a bare string keeps the
initialized `type = 'normal'`. -/
def unwrapPattern : PatternItem → Hand × NoteType
  | .bare h => (h, .normal)
  | .cell h t => (h, t)

/-- Body of the slot loop: `pattern[i % patternLength]`, unwrapped into a
`Note` with `subdivisionIndex = i`.  The `getD` default mirrors the source's
initializers `hand = 'R'`, `type = 'normal'`; it is never reached because
every catalog pattern is nonempty. -/
def noteAt (rudiment : Rudiment) (i : Nat) : Note :=
  let patternItem := rudiment.pattern.getD (i % rudiment.pattern.length) (.bare .R)
  let hp := unwrapPattern patternItem
  { id := "note-" ++ toString i
    hand := hp.1
    type := hp.2
    subdivisionIndex := i }

/-- `generateMeasure(timeSig, subdivision, rudimentId)`.  The source stamps
`id: Date.now()`; the clock reading is passed in as `now`. -/
def generateMeasure (timeSig : TimeSignature) (subdivision : Subdivision)
    (rudimentId : String) (now : Nat) : Measure :=
  let rudiment := findRudiment rudimentId
  let totalSlots := totalSlotsOf timeSig subdivision
  { id := now
    timeSignature := timeSig
    notes := (List.range totalSlots).map (noteAt rudiment) }

/-- `getMeasureDuration(bpm, timeSig) = (60 / bpm) * timeSig.top`. -/
def getMeasureDuration (bpm : ℚ) (timeSig : TimeSignature) : ℚ :=
  60 / bpm * timeSig.top

/-! ### Audio scheduler (`services/audioService.ts`) -/

/-- The `AudioContext`: only its authoritative `currentTime` is relevant. -/
structure AudioClock where
  currentTime : ℚ
deriving DecidableEq, Repr

/-- `MeasureBoundaryInfo` passed to the boundary callback. -/
structure MeasureBoundaryInfo where
  beatIndex : Nat
  time : ℚ
  bpm : ℚ
deriving DecidableEq, Repr

/-- Parameters of the oscillator + gain envelope scheduled for one click. -/
structure ScheduledClick where
  freq : ℚ
  gainVal : ℚ
  decay : ℚ
  time : ℚ
deriving DecidableEq, Repr

/-- Mutable fields of the `AudioService` singleton. The timer id and the
callback registration are omitted: the callback is modelled by returning the
`MeasureBoundaryInfo` it would receive. -/
structure AudioState where
  ctx : Option AudioClock
  nextNoteTime : ℚ
  isPlaying : Bool
  startTime : ℚ
  masterVolume : ℚ
  currentBpm : ℚ
  audioSubdivision : Subdivision
  currentTimeSignature : TimeSignature
  pendingAudioSubdivision : Option Subdivision
  pendingTimeSignature : Option TimeSignature
  pendingBpm : Option ℚ
  pendingBpmAtBeat : Bool
  currentNoteNumber : Nat
deriving DecidableEq, Repr

/-- Field initializers of `AudioService`. -/
def initialAudioState : AudioState :=
  { ctx := none
    nextNoteTime := 0
    isPlaying := false
    startTime := 0
    masterVolume := 0.8
    currentBpm := 120
    audioSubdivision := .Quarter
    currentTimeSignature := ⟨4, 4, "4/4"⟩
    pendingAudioSubdivision := none
    pendingTimeSignature := none
    pendingBpm := none
    pendingBpmAtBeat := false
    currentNoteNumber := 0 }

/-- `init()`: create the `AudioContext` only if absent.  The freshly
constructed context is supplied by the environment as `fresh`. -/
def initService (s : AudioState) (fresh : AudioClock) : AudioState :=
  match s.ctx with
  | some _ => s
  | none => { s with ctx := some fresh }

/-- `getCurrentTime(): return this.ctx?.currentTime || 0`.  The `|| 0`
yields 0 both when `ctx` is null and when `currentTime` is the falsy 0. -/
def getCurrentTime (ctx : Option AudioClock) : ℚ :=
  match ctx with
  | some c => if c.currentTime = 0 then 0 else c.currentTime
  | none => 0

/-- `setBpm(bpm)`. -/
def setBpm (s : AudioState) (bpm : ℚ) : AudioState :=
  if s.isPlaying then
    { s with pendingBpm := some bpm, pendingBpmAtBeat := true }
  else
    { s with currentBpm := bpm, pendingBpm := none, pendingBpmAtBeat := false }

/-- `setAudioSubdivision(sub)`. -/
def setAudioSubdivision (s : AudioState) (sub : Subdivision) : AudioState :=
  if !s.isPlaying then
    { s with audioSubdivision := sub, pendingAudioSubdivision := none }
  else
    { s with pendingAudioSubdivision := some sub }

/-- `setTimeSignature(timeSig)`. -/
def setTimeSignature (s : AudioState) (timeSig : TimeSignature) : AudioState :=
  if !s.isPlaying then
    { s with currentTimeSignature := timeSig, pendingTimeSignature := none }
  else
    { s with pendingTimeSignature := some timeSig }

/-- `setVolume(vol)`: clamp to [0, 1]. -/
def setVolume (s : AudioState) (vol : ℚ) : AudioState :=
  { s with masterVolume := max 0 (min 1 vol) }

/-- `getSlotsPerBeat()` over the active config (if-chains with their
fall-through returns for `Quarter`). -/
def getSlotsPerBeat (s : AudioState) : Nat :=
  if s.currentTimeSignature.bottom = 8 then
    match s.audioSubdivision with
    | .Sixteenth => 2
    | .Eighth => 1
    | .Triplet => 3
    | .Quarter => 2
  else
    match s.audioSubdivision with
    | .Sixteenth => 4
    | .Eighth => 2
    | .Triplet => 3
    | .Quarter => 1

/-- `start(callback)`: lazily init, no-op while playing, reset counter and all
pending fields, anchor `startTime`/`nextNoteTime` 0.1 s into the future. -/
def startService (s0 : AudioState) (fresh : AudioClock) : AudioState :=
  let s := initService s0 fresh
  if s.isPlaying then s
  else
    let st := getCurrentTime s.ctx + 0.1
    { s with
        isPlaying := true
        currentNoteNumber := 0
        pendingAudioSubdivision := none
        pendingTimeSignature := none
        pendingBpm := none
        pendingBpmAtBeat := false
        startTime := st
        nextNoteTime := st }

/-- `stop()`: clear the playing flag (the timer cancellation has no
counterpart in the state). -/
def stopService (s : AudioState) : AudioState :=
  { s with isPlaying := false }

/-- `nextNote()`: advance `nextNoteTime` by
`(60 / currentBpm) / slotsPerBeat` and bump the counter. -/
def nextNote (s : AudioState) : AudioState :=
  let slotsPerBeat := getSlotsPerBeat s
  let secondsPerBeat := 60 / s.currentBpm
  let secondsPerSlot := secondsPerBeat / (slotsPerBeat : ℚ)
  { s with
      nextNoteTime := s.nextNoteTime + secondsPerSlot
      currentNoteNumber := s.currentNoteNumber + 1 }

/-- Step 1 of `scheduleNote`: `totalSlots` under the config active before any
changes this slot. -/
def preTotalSlots (s : AudioState) : Nat :=
  s.currentTimeSignature.top * getSlotsPerBeat s

/-- Step 1 of `scheduleNote`: `currentSlotIndex = currentNoteNumber % totalSlots`. -/
def preSlotIndex (s : AudioState) : Nat :=
  s.currentNoteNumber % preTotalSlots s

/-- Step 1 of `scheduleNote`: `isBeat = currentSlotIndex % slotsPerBeat === 0`. -/
def preIsBeat (s : AudioState) : Bool :=
  preSlotIndex s % getSlotsPerBeat s == 0

/-- Step 1 of `scheduleNote`: `isDownbeat = currentNoteNumber % totalSlots === 0`. -/
def preIsDownbeat (s : AudioState) : Bool :=
  s.currentNoteNumber % preTotalSlots s == 0

/-- Step 1 of `scheduleNote`: `beatIndex = floor(currentSlotIndex / slotsPerBeat)`. -/
def preBeatIndex (s : AudioState) : Nat :=
  preSlotIndex s / getSlotsPerBeat s

/-- Step 2 of `scheduleNote`: apply a pending bpm at a beat boundary.  The
source guard is `pendingBpm && pendingBpmAtBeat && isBeat &&
currentNoteNumber > 0`; `pendingBpm` is truthy when present and nonzero. -/
def applyPendingBpmAtBeat (s : AudioState) (isBeat : Bool) : AudioState :=
  match s.pendingBpm with
  | some b =>
      if b ≠ 0 ∧ s.pendingBpmAtBeat = true ∧ isBeat = true ∧ 0 < s.currentNoteNumber then
        { s with currentBpm := b, pendingBpm := none, pendingBpmAtBeat := false }
      else s
  | none => s

/-- Step 3 of `scheduleNote` (body of the downbeat branch): apply pending
subdivision, pending time signature, fallback pending bpm, then reset the
counter to re-align slot 0 with the new downbeat. -/
def applyPendingAtDownbeat (s : AudioState) : AudioState :=
  let sA :=
    match s.pendingAudioSubdivision with
    | some sub => { s with audioSubdivision := sub, pendingAudioSubdivision := none }
    | none => s
  let sB :=
    match sA.pendingTimeSignature with
    | some ts => { sA with currentTimeSignature := ts, pendingTimeSignature := none }
    | none => sA
  let sC :=
    match sB.pendingBpm with
    | some b =>
        if b ≠ 0 ∧ sB.pendingBpmAtBeat = false then
          { sB with currentBpm := b, pendingBpm := none }
        else sB
    | none => sB
  { sC with currentNoteNumber := 0 }

/-- Result of one `scheduleNote(time)` call: the mutated service state, the
oscillator parameters, and the `MeasureBoundaryInfo` handed to the callback
when the (recomputed) slot is a beat. -/
structure ScheduleResult where
  state : AudioState
  click : ScheduledClick
  boundary : Option MeasureBoundaryInfo
deriving DecidableEq, Repr

/-- `scheduleNote(time)`: two-phase boundary handling.  Metadata is computed
from the pre-change config (step 1), pending changes are applied (steps 2-3),
metadata is recomputed from the possibly-updated config (step 4), and the
click and the beat callback use only the recomputed metadata (steps 5-6). -/
def scheduleNote (s0 : AudioState) (time : ℚ) : ScheduleResult :=
  let isBeat := preIsBeat s0
  let isDownbeat := preIsDownbeat s0
  let s1 := applyPendingBpmAtBeat s0 isBeat
  let s2 :=
    if 0 < s1.currentNoteNumber ∧ isDownbeat = true then applyPendingAtDownbeat s1
    else s1
  let updatedSlotsPerBeat := getSlotsPerBeat s2
  let updatedTotalSlots := s2.currentTimeSignature.top * updatedSlotsPerBeat
  let updatedSlotIndex := s2.currentNoteNumber % updatedTotalSlots
  let updatedIsBeat := updatedSlotIndex % updatedSlotsPerBeat == 0
  let updatedBeatIndex := updatedSlotIndex / updatedSlotsPerBeat
  let click : ScheduledClick :=
    if updatedSlotIndex = 0 then
      { freq := 1500, gainVal := 0.8 * s2.masterVolume, decay := 0.1, time := time }
    else if updatedIsBeat = true then
      { freq := 1000, gainVal := 0.4 * s2.masterVolume, decay := 0.05, time := time }
    else
      { freq := 800, gainVal := 0.15 * s2.masterVolume, decay := 0.05, time := time }
  { state := s2
    click := click
    boundary :=
      if updatedIsBeat = true then
        some { beatIndex := updatedBeatIndex, time := time, bpm := s2.currentBpm }
      else none }

/-- One iteration of the lookahead while loop in `scheduler()`:
`scheduleNote(nextNoteTime); nextNote()`.  The loop body runs only while
playing (the pass returns early otherwise). -/
def schedulerStep (s : AudioState) : AudioState :=
  if s.isPlaying then nextNote (scheduleNote s s.nextNoteTime).state
  else s

/-! ### Visual sync consumer (`ScoreConveyor` animation loop) -/

/-- `MeasureSyncData { startTime, bpm }`. -/
structure MeasureSyncData where
  startTime : ℚ
  bpm : ℚ
deriving DecidableEq, Repr

/-- The refs driving the animation loop: active/queued sync params and
active/queued measure. -/
structure ConveyorState where
  activeParams : MeasureSyncData
  nextParams : Option MeasureSyncData
  activeMeasure : Measure
  nextMeasure : Option Measure
deriving DecidableEq, Repr

/-- JavaScript `%` for the cases the conveyor reaches: the dividend is
clamped nonnegative (`Math.max(0, ·)` or a floored slot index) and the
divisor positive, where `a % b = a - b * floor(a / b)`. -/
def jsMod (a b : ℚ) : ℚ :=
  a - b * (⌊a / b⌋ : ℚ)

/-- Step 1 of `animate`: promote queued sync params once the clock reaches
their `startTime`. -/
def promoteParams (st : ConveyorState) (now : ℚ) : ConveyorState :=
  match st.nextParams with
  | some p =>
      if p.startTime ≤ now then
        { st with activeParams := p, nextParams := none }
      else st
  | none => st

/-- The position computed inside step 2 of `animate`, from the *active*
measure and params: `(currentBeat, positionInBeat)`. -/
def beatPosition (st : ConveyorState) (now : ℚ) : ℤ × ℚ :=
  let currentMeasure := st.activeMeasure
  let slotsPerBeat : ℚ :=
    (currentMeasure.notes.length : ℚ) / (currentMeasure.timeSignature.top : ℚ)
  let measureDuration := getMeasureDuration st.activeParams.bpm currentMeasure.timeSignature
  let elapsed := now - st.activeParams.startTime
  let safeElapsed := max 0 elapsed
  let progress := jsMod safeElapsed measureDuration / measureDuration
  let currentSlotIndex : ℤ := ⌊progress * (currentMeasure.notes.length : ℚ)⌋
  let currentBeat : ℤ := ⌊(currentSlotIndex : ℚ) / slotsPerBeat⌋
  let positionInBeat := jsMod (currentSlotIndex : ℚ) slotsPerBeat / slotsPerBeat
  (currentBeat, positionInBeat)

/-- Step 2 of `animate`: promote a queued measure only within the first 10%
of a beat, recomputing `startTime` so the playhead stays anchored to the
current beat under the new measure. -/
def promoteMeasure (st : ConveyorState) (now : ℚ) : ConveyorState :=
  match st.nextMeasure with
  | some nm =>
      let bp := beatPosition st now
      if bp.2 < 0.1 then
        let newMeasureDuration := getMeasureDuration st.activeParams.bpm nm.timeSignature
        let newBeatProgress := (bp.1 : ℚ) / (nm.timeSignature.top : ℚ)
        { st with
            activeMeasure := nm
            nextMeasure := none
            activeParams :=
              { st.activeParams with
                  startTime := now - newBeatProgress * newMeasureDuration } }
      else st
  | none => st

/-- Step 3 of `animate`: the displayed `(playheadProgress, activeNoteIndex)`
from the active measure and params. -/
def computeProgress (st : ConveyorState) (now : ℚ) : ℚ × ℤ :=
  let currentMeasure := st.activeMeasure
  let totalNotes := currentMeasure.notes.length
  let measureDuration := getMeasureDuration st.activeParams.bpm currentMeasure.timeSignature
  let elapsed := now - st.activeParams.startTime
  let safeElapsed := max 0 elapsed
  let progress := jsMod safeElapsed measureDuration / measureDuration
  (progress, ⌊progress * (totalNotes : ℚ)⌋)

/-- One tick of the `animate` loop while playing: promote queued params, then
maybe promote a queued measure at a beat seam, then compute the progress and
active note index actually rendered. -/
def animate (st : ConveyorState) (now : ℚ) : ConveyorState × ℚ × ℤ :=
  let st1 := promoteParams st now
  let st2 := promoteMeasure st1 now
  (st2, computeProgress st2 now)

/-! ### Spec-side formulas (for refinement comparison)

These definitions transcribe the §4.3 progress formulas literally from the
spec's words; the theorems compare them against the code-derived `animate`. -/

/-- Spec §4.3: `elapsed = max(0, clockNow - activeSyncParams.startTime)`. -/
def specElapsed (clockNow startTime : ℚ) : ℚ :=
  max 0 (clockNow - startTime)

/-- Spec §4.3: `measureDuration = secondsPerBeat(bpm) * beatsPerMeasure`. -/
def specMeasureDuration (bpm : ℚ) (m : Measure) : ℚ :=
  60 / bpm * (m.timeSignature.top : ℚ)

/-- Spec §4.3: `progress = (elapsed mod measureDuration) / measureDuration`. -/
def specProgress (clockNow : ℚ) (p : MeasureSyncData) (m : Measure) : ℚ :=
  jsMod (specElapsed clockNow p.startTime) (specMeasureDuration p.bpm m) /
    specMeasureDuration p.bpm m

/-- Spec §4.3: `activeNoteIndex = floor(progress * activeMeasure.notes.length)`. -/
def specActiveNoteIndex (clockNow : ℚ) (p : MeasureSyncData) (m : Measure) : ℤ :=
  ⌊specProgress clockNow p m * (m.notes.length : ℚ)⌋

/-! ### Playing-engine reachability -/

/-- Invariant carried along the playing engine's states: the engine is
playing, the active and any pending time signature have at least one beat,
and the slot counter never exceeds the active grid's slot count. -/
def SchedInv (s : AudioState) : Prop :=
  s.isPlaying = true ∧
  1 ≤ s.currentTimeSignature.top ∧
  (∀ ts ∈ s.pendingTimeSignature, 1 ≤ ts.top) ∧
  s.currentNoteNumber ≤ preTotalSlots s

/-- One observable transition while playing: a lookahead-loop iteration or
one of the configuration intents.  `setTimeSignature` receives only
catalog-shaped signatures, which all have a positive numerator. -/
inductive EngineStep : AudioState → AudioState → Prop where
  | sched (s : AudioState) : EngineStep s (schedulerStep s)
  | bpm (s : AudioState) (v : ℚ) : EngineStep s (setBpm s v)
  | subdiv (s : AudioState) (sub : Subdivision) : EngineStep s (setAudioSubdivision s sub)
  | timeSig (s : AudioState) (ts : TimeSignature) (h : 1 ≤ ts.top) :
      EngineStep s (setTimeSignature s ts)

/-- Reachability from a start state through engine steps. -/
inductive EngineReach (s0 : AudioState) : AudioState → Prop where
  | refl : EngineReach s0 s0
  | tail (s s2 : AudioState) : EngineReach s0 s → EngineStep s s2 → EngineReach s0 s2

/-! ### Helper lemmas -/

/-- Step 2 of `scheduleNote` touches only the bpm-related fields. -/
theorem applyPendingBpmAtBeat_proj (s : AudioState) (b : Bool) :
    (applyPendingBpmAtBeat s b).audioSubdivision = s.audioSubdivision ∧
    (applyPendingBpmAtBeat s b).currentTimeSignature = s.currentTimeSignature ∧
    (applyPendingBpmAtBeat s b).pendingAudioSubdivision = s.pendingAudioSubdivision ∧
    (applyPendingBpmAtBeat s b).pendingTimeSignature = s.pendingTimeSignature ∧
    (applyPendingBpmAtBeat s b).currentNoteNumber = s.currentNoteNumber ∧
    (applyPendingBpmAtBeat s b).nextNoteTime = s.nextNoteTime ∧
    (applyPendingBpmAtBeat s b).isPlaying = s.isPlaying := by
  unfold applyPendingBpmAtBeat
  split
  · split <;> simp
  · simp

/-- Step 3 of `scheduleNote` installs the pending geometry, clears the
pending fields, and resets the counter. -/
theorem applyPendingAtDownbeat_proj (s : AudioState) :
    (applyPendingAtDownbeat s).audioSubdivision
        = s.pendingAudioSubdivision.getD s.audioSubdivision ∧
    (applyPendingAtDownbeat s).currentTimeSignature
        = s.pendingTimeSignature.getD s.currentTimeSignature ∧
    (applyPendingAtDownbeat s).pendingAudioSubdivision = none ∧
    (applyPendingAtDownbeat s).pendingTimeSignature = none ∧
    (applyPendingAtDownbeat s).currentNoteNumber = 0 ∧
    (applyPendingAtDownbeat s).nextNoteTime = s.nextNoteTime ∧
    (applyPendingAtDownbeat s).isPlaying = s.isPlaying := by
  obtain ⟨ctx, nnt, play, st, vol, bpm, sub0, ts0, pas, pts, pb, flag, cnt⟩ := s
  unfold applyPendingAtDownbeat
  rcases pas with _ | sub <;> rcases pts with _ | ts <;> rcases pb with _ | v <;>
    simp <;> split <;> simp

/-- The active click grid always has at least one slot per beat. -/
theorem getSlotsPerBeat_pos (s : AudioState) : 1 ≤ getSlotsPerBeat s := by
  unfold getSlotsPerBeat
  split <;> cases s.audioSubdivision <;> simp

/-- A downbeat slot (pre-change metadata) is in particular a beat slot. -/
theorem preIsBeat_of_preIsDownbeat (s : AudioState) (h : preIsDownbeat s = true) :
    preIsBeat s = true := by
  unfold preIsDownbeat at h
  simp only [beq_iff_eq] at h
  unfold preIsBeat preSlotIndex
  simp [h]

/-- The state component of `scheduleNote` is exactly the two-phase pending
application, with the downbeat branch driven by the pre-change metadata. -/
theorem scheduleNote_state_eq (s : AudioState) (t : ℚ) :
    (scheduleNote s t).state =
      if 0 < s.currentNoteNumber ∧ preIsDownbeat s = true then
        applyPendingAtDownbeat (applyPendingBpmAtBeat s (preIsBeat s))
      else applyPendingBpmAtBeat s (preIsBeat s) := by
  have hc := (applyPendingBpmAtBeat_proj s (preIsBeat s)).2.2.2.2.1
  simp only [scheduleNote, hc]

/-- When the counter ends a `scheduleNote` call at 0, the recomputed
metadata marks the slot as the downbeat: the callback fires with beat 0. -/
theorem scheduleNote_boundary_of_zero (s : AudioState) (t : ℚ)
    (h0 : (scheduleNote s t).state.currentNoteNumber = 0) :
    (scheduleNote s t).boundary
      = some ⟨0, t, (scheduleNote s t).state.currentBpm⟩ := by
  simp only [scheduleNote] at h0 ⊢
  rw [h0]
  simp

/-- With no pending bpm, step 3 of `scheduleNote` leaves the bpm fields
alone. -/
theorem applyPendingAtDownbeat_bpm_of_none (s : AudioState) (h : s.pendingBpm = none) :
    (applyPendingAtDownbeat s).currentBpm = s.currentBpm ∧
    (applyPendingAtDownbeat s).pendingBpm = none ∧
    (applyPendingAtDownbeat s).pendingBpmAtBeat = s.pendingBpmAtBeat := by
  obtain ⟨ctx, nnt, play, st, vol, bpm, sub0, ts0, pas, pts, pb, flag, cnt⟩ := s
  simp only at h
  subst h
  unfold applyPendingAtDownbeat
  rcases pas with _ | sub <;> rcases pts with _ | ts <;> simp

theorem getSlotsPerBeat_congr (s s2 : AudioState)
    (h1 : s2.currentTimeSignature = s.currentTimeSignature)
    (h2 : s2.audioSubdivision = s.audioSubdivision) :
    getSlotsPerBeat s2 = getSlotsPerBeat s := by
  unfold getSlotsPerBeat
  rw [h1, h2]

theorem preTotalSlots_congr (s s2 : AudioState)
    (h1 : s2.currentTimeSignature = s.currentTimeSignature)
    (h2 : s2.audioSubdivision = s.audioSubdivision) :
    preTotalSlots s2 = preTotalSlots s := by
  unfold preTotalSlots
  rw [h1, getSlotsPerBeat_congr s s2 h1 h2]

theorem preTotalSlots_pos (s : AudioState) (h : 1 ≤ s.currentTimeSignature.top) :
    1 ≤ preTotalSlots s :=
  Nat.mul_pos h (getSlotsPerBeat_pos s)

/-- `SchedInv` is preserved by every engine step. -/
theorem schedInv_step (s s2 : AudioState) (hstep : EngineStep s s2) (h : SchedInv s) :
    SchedInv s2 := by
  obtain ⟨hplay, htop, hpend, hcnt⟩ := h
  cases hstep with
  | bpm v =>
      unfold setBpm
      rw [if_pos hplay]
      exact ⟨hplay, htop, hpend, hcnt⟩
  | subdiv sub =>
      unfold setAudioSubdivision
      rw [hplay]
      simp only [Bool.not_true, Bool.false_eq_true, if_false]
      exact ⟨rfl, htop, hpend, hcnt⟩
  | timeSig ts hts =>
      unfold setTimeSignature
      rw [hplay]
      simp only [Bool.not_true, Bool.false_eq_true, if_false]
      refine ⟨rfl, htop, ?_, hcnt⟩
      intro ts2 hts2
      simp only [Option.mem_def, Option.some.injEq] at hts2
      rw [← hts2]
      exact hts
  | sched =>
      unfold schedulerStep
      rw [if_pos hplay]
      have hstate := scheduleNote_state_eq s s.nextNoteTime
      by_cases hd : 0 < s.currentNoteNumber ∧ preIsDownbeat s = true
      · have hst : (scheduleNote s s.nextNoteTime).state
            = applyPendingAtDownbeat (applyPendingBpmAtBeat s (preIsBeat s)) := by
          rw [hstate, if_pos hd]
        have hB := applyPendingBpmAtBeat_proj s (preIsBeat s)
        have hD := applyPendingAtDownbeat_proj (applyPendingBpmAtBeat s (preIsBeat s))
        have hts : (scheduleNote s s.nextNoteTime).state.currentTimeSignature
            = s.pendingTimeSignature.getD s.currentTimeSignature := by
          rw [hst, hD.2.1, hB.2.2.2.1, hB.2.1]
        have hcnt0 : (scheduleNote s s.nextNoteTime).state.currentNoteNumber = 0 := by
          rw [hst]; exact hD.2.2.2.2.1
        have hplay2 : (scheduleNote s s.nextNoteTime).state.isPlaying = true := by
          rw [hst, hD.2.2.2.2.2.2, hB.2.2.2.2.2.2]; exact hplay
        have htop2 : 1 ≤ (scheduleNote s s.nextNoteTime).state.currentTimeSignature.top := by
          rw [hts]
          cases hpts : s.pendingTimeSignature with
          | none => simpa using htop
          | some ts2 =>
              have := hpend ts2 (by rw [hpts]; rfl)
              simpa using this
        have hpend2 : ∀ ts2 ∈ (scheduleNote s s.nextNoteTime).state.pendingTimeSignature,
            1 ≤ ts2.top := by
          rw [hst, hD.2.2.2.1]
          intro ts2 hts2
          simp at hts2
        refine ⟨hplay2, htop2, hpend2, ?_⟩
        show (scheduleNote s s.nextNoteTime).state.currentNoteNumber + 1
            ≤ preTotalSlots (scheduleNote s s.nextNoteTime).state
        rw [hcnt0]
        exact preTotalSlots_pos _ htop2
      · have hst : (scheduleNote s s.nextNoteTime).state
            = applyPendingBpmAtBeat s (preIsBeat s) := by
          rw [hstate, if_neg hd]
        have hB := applyPendingBpmAtBeat_proj s (preIsBeat s)
        have h1 : (scheduleNote s s.nextNoteTime).state.currentTimeSignature
            = s.currentTimeSignature := by rw [hst]; exact hB.2.1
        have h2 : (scheduleNote s s.nextNoteTime).state.audioSubdivision
            = s.audioSubdivision := by rw [hst]; exact hB.1
        have h3 : (scheduleNote s s.nextNoteTime).state.currentNoteNumber
            = s.currentNoteNumber := by rw [hst]; exact hB.2.2.2.2.1
        have h4 : (scheduleNote s s.nextNoteTime).state.pendingTimeSignature
            = s.pendingTimeSignature := by rw [hst]; exact hB.2.2.2.1
        have h5 : (scheduleNote s s.nextNoteTime).state.isPlaying = true := by
          rw [hst, hB.2.2.2.2.2.2]; exact hplay
        have htot : preTotalSlots (scheduleNote s s.nextNoteTime).state = preTotalSlots s :=
          preTotalSlots_congr s _ h1 h2
        have hlt : s.currentNoteNumber < preTotalSlots s := by
          rcases Nat.lt_or_ge s.currentNoteNumber (preTotalSlots s) with hl | hg
          · exact hl
          · exfalso
            have heq : s.currentNoteNumber = preTotalSlots s := le_antisymm hcnt hg
            have hpos : 1 ≤ preTotalSlots s := preTotalSlots_pos s htop
            apply hd
            refine ⟨by omega, ?_⟩
            unfold preIsDownbeat
            rw [heq]
            simp [Nat.mod_self]
        refine ⟨h5, ?_, ?_, ?_⟩
        · show 1 ≤ (scheduleNote s s.nextNoteTime).state.currentTimeSignature.top
          rw [h1]; exact htop
        · show ∀ ts2 ∈ (scheduleNote s s.nextNoteTime).state.pendingTimeSignature, 1 ≤ ts2.top
          rw [h4]; exact hpend
        · show (scheduleNote s s.nextNoteTime).state.currentNoteNumber + 1
              ≤ preTotalSlots (scheduleNote s s.nextNoteTime).state
          rw [h3, htot]
          omega

/-- `init()` only installs the context; every other field is untouched. -/
theorem initService_proj (s : AudioState) (c : AudioClock) :
    (initService s c).isPlaying = s.isPlaying ∧
    (initService s c).currentTimeSignature = s.currentTimeSignature := by
  unfold initService
  split <;> simp

/-- A clean `start()` from a stopped state establishes the invariant. -/
theorem startService_schedInv (s0 : AudioState) (c : AudioClock)
    (hstop : s0.isPlaying = false) (htop : 1 ≤ s0.currentTimeSignature.top) :
    SchedInv (startService s0 c) := by
  have hi := initService_proj s0 c
  simp only [startService]
  rw [hi.1, hstop]
  simp only [Bool.false_eq_true, if_false]
  refine ⟨rfl, ?_, ?_, ?_⟩
  · show 1 ≤ (initService s0 c).currentTimeSignature.top
    rw [hi.2]; exact htop
  · intro ts2 hts2
    simp at hts2
  · exact Nat.zero_le _

/-! ### Theorems -/

/-- C1 as stated is false: `generateMeasure` never assigns `slotsPerBeat` for
the `Quarter` subdivision, so 4/4 + Quarter yields an empty measure (0 notes),
not the `beatsPerMeasure * 1 = 4` the table promises. -/
theorem C1_counterexample :
    (generateMeasure ⟨4, 4, "4/4"⟩ .Quarter "single_stroke_roll" 0).notes.length = 0 ∧
    ¬ (generateMeasure ⟨4, 4, "4/4"⟩ .Quarter "single_stroke_roll" 0).notes.length = 4 := by
  decide

/-- C1 (amended): for every catalog time signature and rudiment id, the
number of generated notes equals `totalSlotsOf`, which matches the §4.1 table
for Sixteenth/Triplet/Eighth (in particular 4/4+Sixteenth→16, 6/8+Eighth→6,
6/8+Sixteenth→12), while Quarter is unhandled by the generator's
`slotsPerBeat` computation and yields 0 slots for every catalog signature. -/
theorem C1_totalSlots_table (timeSig : TimeSignature) (subdivision : Subdivision)
    (rudimentId : String) (now : Nat) :
    (generateMeasure timeSig subdivision rudimentId now).notes.length
        = totalSlotsOf timeSig subdivision ∧
    totalSlotsOf ⟨4, 4, "4/4"⟩ .Sixteenth = 16 ∧
    totalSlotsOf ⟨4, 4, "4/4"⟩ .Triplet = 12 ∧
    totalSlotsOf ⟨4, 4, "4/4"⟩ .Eighth = 8 ∧
    totalSlotsOf ⟨4, 4, "4/4"⟩ .Quarter = 0 ∧
    totalSlotsOf ⟨3, 4, "3/4"⟩ .Sixteenth = 12 ∧
    totalSlotsOf ⟨3, 4, "3/4"⟩ .Triplet = 9 ∧
    totalSlotsOf ⟨3, 4, "3/4"⟩ .Eighth = 6 ∧
    totalSlotsOf ⟨3, 4, "3/4"⟩ .Quarter = 0 ∧
    totalSlotsOf ⟨6, 8, "6/8"⟩ .Sixteenth = 12 ∧
    totalSlotsOf ⟨6, 8, "6/8"⟩ .Triplet = 18 ∧
    totalSlotsOf ⟨6, 8, "6/8"⟩ .Eighth = 6 ∧
    totalSlotsOf ⟨6, 8, "6/8"⟩ .Quarter = 0 := by
  refine ⟨?_, by decide, by decide, by decide, by decide, by decide, by decide,
    by decide, by decide, by decide, by decide, by decide, by decide⟩
  simp [generateMeasure]

/-- C6: the cyclic rudiment pattern is tiled across the measure: note `i` of
any generated measure carries the hand and note type of
`pattern[i mod patternLength]` (a bare hand meaning `normal`), and its slot
index is `i`, whether or not the pattern length divides the slot count. -/
theorem C6_pattern_cycling (timeSig : TimeSignature) (subdivision : Subdivision)
    (rudimentId : String) (now : Nat) (i : Nat)
    (hi : i < (generateMeasure timeSig subdivision rudimentId now).notes.length) :
    ((generateMeasure timeSig subdivision rudimentId now).notes[i]).hand
        = (unwrapPattern ((findRudiment rudimentId).pattern.getD
            (i % (findRudiment rudimentId).pattern.length) (.bare .R))).1 ∧
    ((generateMeasure timeSig subdivision rudimentId now).notes[i]).type
        = (unwrapPattern ((findRudiment rudimentId).pattern.getD
            (i % (findRudiment rudimentId).pattern.length) (.bare .R))).2 ∧
    ((generateMeasure timeSig subdivision rudimentId now).notes[i]).subdivisionIndex = i := by
  have hi' : i < totalSlotsOf timeSig subdivision := by
    simpa [generateMeasure] using hi
  simp [generateMeasure, noteAt]

/-- Witness for C6 at a concrete input: slot 9 of a 4/4 sixteenth measure of
the single paradiddle (pattern length 8) carries `pattern[9 mod 8] = 'L'`. -/
theorem C6_pattern_cycling_witness :
    9 < (generateMeasure ⟨4, 4, "4/4"⟩ .Sixteenth "single_paradiddle" 0).notes.length ∧
    ((generateMeasure ⟨4, 4, "4/4"⟩ .Sixteenth "single_paradiddle" 0).notes.getD 9
        ⟨"", .R, .normal, 0⟩).hand = .L := by
  refine ⟨by decide, ?_⟩
  have h := C6_pattern_cycling ⟨4, 4, "4/4"⟩ .Sixteenth "single_paradiddle" 0 9 (by decide)
  have hh := h.1
  rw [List.getD_eq_getElem _ _ (by decide)]
  rw [hh]
  decide

/-- C9: an unknown rudiment id never errors: generation falls back to the
first catalog entry and yields exactly its measure; a catalog id resolves to
its own (matching) rudiment. -/
theorem C9_unknown_rudiment_fallback (rudimentId : String) (timeSig : TimeSignature)
    (subdivision : Subdivision) (now : Nat) :
    ((∀ r ∈ RUDIMENTS, r.id ≠ rudimentId) →
      generateMeasure timeSig subdivision rudimentId now
        = generateMeasure timeSig subdivision singleStrokeRoll.id now) ∧
    (∀ r ∈ RUDIMENTS, findRudiment r.id = r) := by
  constructor
  · intro h
    have hfind : RUDIMENTS.find? (fun r => r.id == rudimentId) = none := by
      rw [List.find?_eq_none]
      intro r hr
      simpa using h r hr
    have hfirst : findRudiment rudimentId = singleStrokeRoll := by
      simp [findRudiment, hfind]
    have hself : findRudiment singleStrokeRoll.id = singleStrokeRoll := by decide
    simp [generateMeasure, hfirst, hself]
  · decide

/-- Witness for C9: the app's initial id `"paradiddle"` is absent from the
catalog and generates the single-stroke measure. -/
theorem C9_unknown_rudiment_fallback_witness :
    generateMeasure ⟨4, 4, "4/4"⟩ .Sixteenth "paradiddle" 0
      = generateMeasure ⟨4, 4, "4/4"⟩ .Sixteenth singleStrokeRoll.id 0 :=
  (C9_unknown_rudiment_fallback "paradiddle" ⟨4, 4, "4/4"⟩ .Sixteenth 0).1 (by decide)

/-- C4: while Playing each setter leaves the active config untouched and
writes only its own pending slot (last write wins); while Stopped each setter
writes the active field and clears that field's pending value. -/
theorem C4_setter_pending_vs_active (s : AudioState) (v v2 : ℚ)
    (sub sub2 : Subdivision) (ts ts2 : TimeSignature) :
    ((setBpm s v).currentBpm = if s.isPlaying then s.currentBpm else v) ∧
    ((setBpm s v).audioSubdivision = s.audioSubdivision) ∧
    ((setBpm s v).currentTimeSignature = s.currentTimeSignature) ∧
    ((setBpm s v).pendingBpm = if s.isPlaying then some v else none) ∧
    ((setBpm s v).pendingAudioSubdivision = s.pendingAudioSubdivision) ∧
    ((setBpm s v).pendingTimeSignature = s.pendingTimeSignature) ∧
    ((setBpm (setBpm s v) v2).pendingBpm = if s.isPlaying then some v2 else none) ∧
    ((setAudioSubdivision s sub).currentBpm = s.currentBpm) ∧
    ((setAudioSubdivision s sub).audioSubdivision
        = if s.isPlaying then s.audioSubdivision else sub) ∧
    ((setAudioSubdivision s sub).currentTimeSignature = s.currentTimeSignature) ∧
    ((setAudioSubdivision s sub).pendingAudioSubdivision
        = if s.isPlaying then some sub else none) ∧
    ((setAudioSubdivision s sub).pendingBpm = s.pendingBpm) ∧
    ((setAudioSubdivision s sub).pendingTimeSignature = s.pendingTimeSignature) ∧
    ((setAudioSubdivision (setAudioSubdivision s sub) sub2).pendingAudioSubdivision
        = if s.isPlaying then some sub2 else none) ∧
    ((setTimeSignature s ts).currentBpm = s.currentBpm) ∧
    ((setTimeSignature s ts).audioSubdivision = s.audioSubdivision) ∧
    ((setTimeSignature s ts).currentTimeSignature
        = if s.isPlaying then s.currentTimeSignature else ts) ∧
    ((setTimeSignature s ts).pendingTimeSignature
        = if s.isPlaying then some ts else none) ∧
    ((setTimeSignature s ts).pendingBpm = s.pendingBpm) ∧
    ((setTimeSignature s ts).pendingAudioSubdivision = s.pendingAudioSubdivision) ∧
    ((setTimeSignature (setTimeSignature s ts) ts2).pendingTimeSignature
        = if s.isPlaying then some ts2 else none) := by
  cases hp : s.isPlaying <;>
    simp [setBpm, setAudioSubdivision, setTimeSignature, hp]

/-- C10: the clock getter is total: with no `AudioContext` it returns 0; with
one it returns that context's current time (the `|| 0` collapses only the
already-zero reading to itself), and after `init()` it reads the context
`init` installed. -/
theorem C10_getCurrentTime_total (s : AudioState) (c fresh : AudioClock)
    (hnone : s.ctx = none) :
    getCurrentTime none = 0 ∧
    getCurrentTime (some c) = c.currentTime ∧
    (initService s fresh).ctx = some fresh ∧
    getCurrentTime (initService s fresh).ctx = fresh.currentTime := by
  have h2 : ∀ k : AudioClock, getCurrentTime (some k) = k.currentTime := by
    intro k
    by_cases h : k.currentTime = 0 <;> simp [getCurrentTime, h]
  have h3 : (initService s fresh).ctx = some fresh := by
    simp [initService, hnone]
  exact ⟨rfl, h2 c, h3, by rw [h3, h2]⟩

/-- Witness for C10 at a concrete input: the uninitialized service reads 0,
and after `init` installs a clock at 5 s the getter reads 5. -/
theorem C10_getCurrentTime_total_witness :
    getCurrentTime none = 0 ∧
    getCurrentTime (some (⟨5⟩ : AudioClock)) = 5 ∧
    (initService initialAudioState ⟨5⟩).ctx = some ⟨5⟩ ∧
    getCurrentTime (initService initialAudioState ⟨5⟩).ctx = 5 :=
  C10_getCurrentTime_total initialAudioState ⟨5⟩ ⟨5⟩ rfl

/-- C2: a pending audio subdivision or time signature survives every slot
that is not a downbeat of the old grid (counter 0 included), and is applied
exactly at a slot where the pre-change metadata says downbeat with a positive
counter; there the counter resets to 0, the slot's recomputed metadata makes
it beat 0 of the new grid, and the next slot advance uses the new geometry's
`secondsPerSlot` exclusively. -/
theorem C2_geometry_change_at_downbeat (s : AudioState) (t : ℚ) :
    (¬(0 < s.currentNoteNumber ∧ preIsDownbeat s = true) →
      ((scheduleNote s t).state.audioSubdivision = s.audioSubdivision ∧
       (scheduleNote s t).state.currentTimeSignature = s.currentTimeSignature ∧
       (scheduleNote s t).state.pendingAudioSubdivision = s.pendingAudioSubdivision ∧
       (scheduleNote s t).state.pendingTimeSignature = s.pendingTimeSignature ∧
       (scheduleNote s t).state.currentNoteNumber = s.currentNoteNumber)) ∧
    ((0 < s.currentNoteNumber ∧ preIsDownbeat s = true) →
      ((scheduleNote s t).state.audioSubdivision
          = s.pendingAudioSubdivision.getD s.audioSubdivision ∧
       (scheduleNote s t).state.currentTimeSignature
          = s.pendingTimeSignature.getD s.currentTimeSignature ∧
       (scheduleNote s t).state.pendingAudioSubdivision = none ∧
       (scheduleNote s t).state.pendingTimeSignature = none ∧
       (scheduleNote s t).state.currentNoteNumber = 0 ∧
       (scheduleNote s t).boundary
          = some ⟨0, t, (scheduleNote s t).state.currentBpm⟩ ∧
       (nextNote (scheduleNote s t).state).nextNoteTime
          = (scheduleNote s t).state.nextNoteTime
            + 60 / (scheduleNote s t).state.currentBpm
              / ((getSlotsPerBeat (scheduleNote s t).state : ℚ)))) := by
  have hst := scheduleNote_state_eq s t
  have hB := applyPendingBpmAtBeat_proj s (preIsBeat s)
  constructor
  · intro h
    rw [hst, if_neg h]
    exact ⟨hB.1, hB.2.1, hB.2.2.1, hB.2.2.2.1, hB.2.2.2.2.1⟩
  · intro h
    have hst2 : (scheduleNote s t).state
        = applyPendingAtDownbeat (applyPendingBpmAtBeat s (preIsBeat s)) := by
      rw [hst, if_pos h]
    have hD := applyPendingAtDownbeat_proj (applyPendingBpmAtBeat s (preIsBeat s))
    refine ⟨?_, ?_, ?_, ?_, ?_, ?_, ?_⟩
    · rw [hst2, hD.1, hB.2.2.1, hB.1]
    · rw [hst2, hD.2.1, hB.2.2.2.1, hB.2.1]
    · rw [hst2]; exact hD.2.2.1
    · rw [hst2]; exact hD.2.2.2.1
    · rw [hst2]; exact hD.2.2.2.2.1
    · exact scheduleNote_boundary_of_zero s t (by rw [hst2]; exact hD.2.2.2.2.1)
    · simp [nextNote]

/-- Witness for C2: at counter 4 of a 4-slot 4/4 quarter grid (a downbeat of
the old geometry) the queued Eighth subdivision and 6/8 signature become
active and the counter resets. -/
theorem C2_geometry_change_at_downbeat_witness :
    (scheduleNote
        { initialAudioState with
            isPlaying := true
            currentNoteNumber := 4
            pendingAudioSubdivision := some Subdivision.Eighth
            pendingTimeSignature := some ⟨6, 8, "6/8"⟩ } 1).state.audioSubdivision
        = Subdivision.Eighth ∧
    (scheduleNote
        { initialAudioState with
            isPlaying := true
            currentNoteNumber := 4
            pendingAudioSubdivision := some Subdivision.Eighth
            pendingTimeSignature := some ⟨6, 8, "6/8"⟩ } 1).state.currentTimeSignature
        = ⟨6, 8, "6/8"⟩ ∧
    (scheduleNote
        { initialAudioState with
            isPlaying := true
            currentNoteNumber := 4
            pendingAudioSubdivision := some Subdivision.Eighth
            pendingTimeSignature := some ⟨6, 8, "6/8"⟩ } 1).state.currentNoteNumber = 0 := by
  have h := (C2_geometry_change_at_downbeat
      { initialAudioState with
          isPlaying := true
          currentNoteNumber := 4
          pendingAudioSubdivision := some Subdivision.Eighth
          pendingTimeSignature := some ⟨6, 8, "6/8"⟩ } 1).2
      ⟨by decide, by decide⟩
  exact ⟨h.1, h.2.1, h.2.2.2.2.1⟩

/-- C3: `setBpm` while Playing queues the value with the beat flag and does
not touch the active bpm; the queued bpm survives any slot that is not a
pre-change beat boundary with positive counter, and at the first such beat
boundary it becomes the active bpm, the pending value is cleared, and the
very next `secondsPerSlot` advance divides 60 by the new value. -/
theorem C3_pending_bpm_fast_path (s sb : AudioState) (v t : ℚ)
    (hp : s.isPlaying = true) (h40 : 40 ≤ v) (h240 : v ≤ 240)
    (hpend : sb.pendingBpm = some v) (hflag : sb.pendingBpmAtBeat = true) :
    ((setBpm s v).pendingBpm = some v ∧
     (setBpm s v).pendingBpmAtBeat = true ∧
     (setBpm s v).currentBpm = s.currentBpm) ∧
    (¬(preIsBeat sb = true ∧ 0 < sb.currentNoteNumber) →
      ((scheduleNote sb t).state.currentBpm = sb.currentBpm ∧
       (scheduleNote sb t).state.pendingBpm = some v ∧
       (scheduleNote sb t).state.pendingBpmAtBeat = true)) ∧
    ((preIsBeat sb = true ∧ 0 < sb.currentNoteNumber) →
      ((scheduleNote sb t).state.currentBpm = v ∧
       (scheduleNote sb t).state.pendingBpm = none ∧
       (scheduleNote sb t).state.pendingBpmAtBeat = false ∧
       (nextNote (scheduleNote sb t).state).nextNoteTime
         = (scheduleNote sb t).state.nextNoteTime
           + 60 / v / ((getSlotsPerBeat (scheduleNote sb t).state : ℚ)))) := by
  have hv0 : v ≠ 0 := by intro h0; rw [h0] at h40; norm_num at h40
  refine ⟨by simp [setBpm, hp], ?_, ?_⟩
  · intro h
    have hs1 : applyPendingBpmAtBeat sb (preIsBeat sb) = sb := by
      unfold applyPendingBpmAtBeat
      rw [hpend]
      dsimp only
      rw [if_neg]
      rintro ⟨g1, g2, g3, g4⟩
      exact h ⟨g3, g4⟩
    have hcond : ¬(0 < sb.currentNoteNumber ∧ preIsDownbeat sb = true) := by
      rintro ⟨g1, g2⟩
      exact h ⟨preIsBeat_of_preIsDownbeat sb g2, g1⟩
    rw [scheduleNote_state_eq, if_neg hcond, hs1]
    exact ⟨rfl, hpend, hflag⟩
  · intro h
    have hs1 : applyPendingBpmAtBeat sb (preIsBeat sb)
        = { sb with currentBpm := v, pendingBpm := none, pendingBpmAtBeat := false } := by
      unfold applyPendingBpmAtBeat
      rw [hpend]
      dsimp only
      rw [if_pos ⟨hv0, hflag, h.1, h.2⟩]
    have hmain : (scheduleNote sb t).state.currentBpm = v ∧
        (scheduleNote sb t).state.pendingBpm = none ∧
        (scheduleNote sb t).state.pendingBpmAtBeat = false := by
      rw [scheduleNote_state_eq, hs1]
      by_cases hd : 0 < sb.currentNoteNumber ∧ preIsDownbeat sb = true
      · rw [if_pos hd]
        have hn := applyPendingAtDownbeat_bpm_of_none
          { sb with currentBpm := v, pendingBpm := none, pendingBpmAtBeat := false } rfl
        exact ⟨hn.1, hn.2.1, hn.2.2⟩
      · rw [if_neg hd]
        exact ⟨rfl, rfl, rfl⟩
    refine ⟨hmain.1, hmain.2.1, hmain.2.2, ?_⟩
    rw [nextNote, hmain.1]

/-- Witness for C3: with bpm 100 queued beat-applicable and the counter at
slot 1 of a quarter-note grid (a beat boundary), the scheduled slot
activates 100 and clears the pending value. -/
theorem C3_pending_bpm_fast_path_witness :
    (setBpm { initialAudioState with isPlaying := true } 100).pendingBpm = some 100 ∧
    (scheduleNote
        { initialAudioState with
            isPlaying := true
            currentNoteNumber := 1
            pendingBpm := some 100
            pendingBpmAtBeat := true } 1).state.currentBpm = 100 ∧
    (scheduleNote
        { initialAudioState with
            isPlaying := true
            currentNoteNumber := 1
            pendingBpm := some 100
            pendingBpmAtBeat := true } 1).state.pendingBpm = none := by
  have h := C3_pending_bpm_fast_path
      { initialAudioState with isPlaying := true }
      { initialAudioState with
          isPlaying := true
          currentNoteNumber := 1
          pendingBpm := some 100
          pendingBpmAtBeat := true }
      100 1 rfl (by norm_num) (by norm_num) rfl rfl
  have happ := h.2.2 ⟨by decide, by decide⟩
  exact ⟨h.1.1, happ.1, happ.2.1⟩

/-- C5 as stated is false: after the four slots of the initial 4/4 quarter
grid are scheduled, the engine rests with `currentNoteNumber = 4 =
totalSlots` until the next `scheduleNote` call resets it, so the counter is
not always in the half-open range `[0, totalSlots)`. -/
theorem C5_counterexample :
    EngineReach (startService initialAudioState ⟨0⟩)
        (schedulerStep (schedulerStep (schedulerStep (schedulerStep
          (startService initialAudioState ⟨0⟩))))) ∧
    ¬ ((schedulerStep (schedulerStep (schedulerStep (schedulerStep
          (startService initialAudioState ⟨0⟩))))).currentNoteNumber
        < preTotalSlots (schedulerStep (schedulerStep (schedulerStep (schedulerStep
          (startService initialAudioState ⟨0⟩)))))) := by
  constructor
  · exact EngineReach.tail _ _ (EngineReach.tail _ _ (EngineReach.tail _ _
      (EngineReach.tail _ _ EngineReach.refl (EngineStep.sched _)) (EngineStep.sched _))
      (EngineStep.sched _)) (EngineStep.sched _)
  · decide

/-- C5 (amended): in every state reachable from a clean `start()` through
lookahead iterations and configuration calls, the slot counter lies in the
closed range `[0, totalSlots]` of the active config, and `scheduleNote`
resets it to 0 exactly at the slots whose pre-change metadata is a downbeat
with positive counter — the same slots at which pending structural changes
are applied — so no modulo ever spans two grid geometries. -/
theorem C5_slot_counter_invariant (s0 : AudioState) (c : AudioClock) (s : AudioState) (t : ℚ)
    (hstop : s0.isPlaying = false) (htop : 1 ≤ s0.currentTimeSignature.top)
    (hreach : EngineReach (startService s0 c) s) :
    s.currentNoteNumber ≤ preTotalSlots s ∧
    ((scheduleNote s t).state.currentNoteNumber = 0 ↔
      ((0 < s.currentNoteNumber ∧ preIsDownbeat s = true) ∨ s.currentNoteNumber = 0)) := by
  have hinv : SchedInv s := by
    induction hreach with
    | refl => exact startService_schedInv s0 c hstop htop
    | tail sa sb hr hstep ih => exact schedInv_step sa sb hstep ih
  refine ⟨hinv.2.2.2, ?_⟩
  rw [scheduleNote_state_eq]
  by_cases hd : 0 < s.currentNoteNumber ∧ preIsDownbeat s = true
  · rw [if_pos hd]
    have hD := applyPendingAtDownbeat_proj (applyPendingBpmAtBeat s (preIsBeat s))
    rw [hD.2.2.2.2.1]
    simp [hd]
  · rw [if_neg hd]
    rw [(applyPendingBpmAtBeat_proj s (preIsBeat s)).2.2.2.2.1]
    constructor
    · intro h0
      exact Or.inr h0
    · rintro (hcase | h0)
      · exact absurd hcase hd
      · exact h0

/-- Witness for C5 at a concrete input: the freshly started engine satisfies
the bound and the reset characterization. -/
theorem C5_slot_counter_invariant_witness :
    (startService initialAudioState ⟨0⟩).currentNoteNumber
        ≤ preTotalSlots (startService initialAudioState ⟨0⟩) ∧
    ((scheduleNote (startService initialAudioState ⟨0⟩) 0).state.currentNoteNumber = 0 ↔
      ((0 < (startService initialAudioState ⟨0⟩).currentNoteNumber ∧
          preIsDownbeat (startService initialAudioState ⟨0⟩) = true) ∨
        (startService initialAudioState ⟨0⟩).currentNoteNumber = 0)) :=
  C5_slot_counter_invariant initialAudioState ⟨0⟩ (startService initialAudioState ⟨0⟩) 0
    rfl (by decide) EngineReach.refl

/-- C7: each render tick while playing displays exactly the spec's formulas
evaluated at that tick's active sync params and active measure: clamped
elapsed time, measure duration `secondsPerBeat * beatsPerMeasure`, wrapped
progress, and the floor-indexed active note. -/
theorem C7_progress_formula (st : ConveyorState) (now : ℚ) :
    (animate st now).2.1
      = specProgress now (animate st now).1.activeParams (animate st now).1.activeMeasure ∧
    (animate st now).2.2
      = specActiveNoteIndex now (animate st now).1.activeParams (animate st now).1.activeMeasure := by
  constructor <;> rfl

/-- C8: a queued measure is promoted only on a tick whose position within the
current beat (computed from the active measure and params) is below 10%, and
the recomputed `startTime` pins the playhead to the start of the same beat
index under the new measure: the new elapsed time equals
`currentBeat * secondsPerBeat`, independent of the new slot count. -/
theorem C8_measure_swap_at_beat_seam (st : ConveyorState) (now : ℚ) (nm : Measure)
    (hnm : st.nextMeasure = some nm) (htop : 0 < nm.timeSignature.top) :
    (¬ (beatPosition st now).2 < 0.1 → promoteMeasure st now = st) ∧
    ((beatPosition st now).2 < 0.1 →
      ((promoteMeasure st now).activeMeasure = nm ∧
       (promoteMeasure st now).nextMeasure = none ∧
       (promoteMeasure st now).activeParams.bpm = st.activeParams.bpm ∧
       (promoteMeasure st now).activeParams.startTime
         = now - ((beatPosition st now).1 : ℚ) / (nm.timeSignature.top : ℚ)
             * getMeasureDuration st.activeParams.bpm nm.timeSignature ∧
       now - (promoteMeasure st now).activeParams.startTime
         = ((beatPosition st now).1 : ℚ) * (60 / st.activeParams.bpm))) := by
  have hT : (nm.timeSignature.top : ℚ) ≠ 0 :=
    Nat.cast_ne_zero.mpr (Nat.pos_iff_ne_zero.mp htop)
  constructor
  · intro h
    unfold promoteMeasure
    rw [hnm]
    dsimp only
    rw [if_neg h]
  · intro h
    have hpm : promoteMeasure st now =
        { st with
            activeMeasure := nm
            nextMeasure := none
            activeParams :=
              { st.activeParams with
                  startTime := now - ((beatPosition st now).1 : ℚ)
                    / (nm.timeSignature.top : ℚ)
                    * getMeasureDuration st.activeParams.bpm nm.timeSignature } } := by
      unfold promoteMeasure
      rw [hnm]
      dsimp only
      rw [if_pos h]
    refine ⟨by rw [hpm], by rw [hpm], by rw [hpm], by rw [hpm], ?_⟩
    rw [hpm]
    show now - (now - ((beatPosition st now).1 : ℚ) / (nm.timeSignature.top : ℚ)
          * getMeasureDuration st.activeParams.bpm nm.timeSignature)
        = ((beatPosition st now).1 : ℚ) * (60 / st.activeParams.bpm)
    rw [sub_sub_cancel]
    unfold getMeasureDuration
    field_simp
    rw [show ((beatPosition st now).1 : ℚ) * (60 * (nm.timeSignature.top : ℚ))
        = (nm.timeSignature.top : ℚ) * (((beatPosition st now).1 : ℚ) * 60) from by ring]
    rw [mul_div_mul_left _ _ hT]

/-- Witness for C8 at a concrete input: at the start of a 4-slot 4/4 measure
(position within beat 0, inside the 10% seam) the queued 3/4 measure is
promoted and the queue cleared. -/
theorem C8_measure_swap_at_beat_seam_witness :
    (beatPosition
        { activeParams := ⟨0, 120⟩, nextParams := none,
          activeMeasure := ⟨0, ⟨4, 4, "4/4"⟩,
            [⟨"0", .R, .normal, 0⟩, ⟨"1", .L, .normal, 1⟩,
             ⟨"2", .R, .normal, 2⟩, ⟨"3", .L, .normal, 3⟩]⟩,
          nextMeasure := some ⟨1, ⟨3, 4, "3/4"⟩,
            [⟨"0", .R, .normal, 0⟩, ⟨"1", .L, .normal, 1⟩, ⟨"2", .R, .normal, 2⟩]⟩ } 0).2
      < 0.1 ∧
    (promoteMeasure
        { activeParams := ⟨0, 120⟩, nextParams := none,
          activeMeasure := ⟨0, ⟨4, 4, "4/4"⟩,
            [⟨"0", .R, .normal, 0⟩, ⟨"1", .L, .normal, 1⟩,
             ⟨"2", .R, .normal, 2⟩, ⟨"3", .L, .normal, 3⟩]⟩,
          nextMeasure := some ⟨1, ⟨3, 4, "3/4"⟩,
            [⟨"0", .R, .normal, 0⟩, ⟨"1", .L, .normal, 1⟩, ⟨"2", .R, .normal, 2⟩]⟩ } 0).activeMeasure
      = ⟨1, ⟨3, 4, "3/4"⟩,
            [⟨"0", .R, .normal, 0⟩, ⟨"1", .L, .normal, 1⟩, ⟨"2", .R, .normal, 2⟩]⟩ ∧
    (promoteMeasure
        { activeParams := ⟨0, 120⟩, nextParams := none,
          activeMeasure := ⟨0, ⟨4, 4, "4/4"⟩,
            [⟨"0", .R, .normal, 0⟩, ⟨"1", .L, .normal, 1⟩,
             ⟨"2", .R, .normal, 2⟩, ⟨"3", .L, .normal, 3⟩]⟩,
          nextMeasure := some ⟨1, ⟨3, 4, "3/4"⟩,
            [⟨"0", .R, .normal, 0⟩, ⟨"1", .L, .normal, 1⟩, ⟨"2", .R, .normal, 2⟩]⟩ } 0).nextMeasure
      = none := by
  have hcond : (beatPosition
      { activeParams := ⟨0, 120⟩, nextParams := none,
        activeMeasure := ⟨0, ⟨4, 4, "4/4"⟩,
          [⟨"0", .R, .normal, 0⟩, ⟨"1", .L, .normal, 1⟩,
           ⟨"2", .R, .normal, 2⟩, ⟨"3", .L, .normal, 3⟩]⟩,
        nextMeasure := some ⟨1, ⟨3, 4, "3/4"⟩,
          [⟨"0", .R, .normal, 0⟩, ⟨"1", .L, .normal, 1⟩, ⟨"2", .R, .normal, 2⟩]⟩ } 0).2
      < 0.1 := by
    unfold beatPosition
    norm_num [jsMod, getMeasureDuration]
  have h := (C8_measure_swap_at_beat_seam
      { activeParams := ⟨0, 120⟩, nextParams := none,
        activeMeasure := ⟨0, ⟨4, 4, "4/4"⟩,
          [⟨"0", .R, .normal, 0⟩, ⟨"1", .L, .normal, 1⟩,
           ⟨"2", .R, .normal, 2⟩, ⟨"3", .L, .normal, 3⟩]⟩,
        nextMeasure := some ⟨1, ⟨3, 4, "3/4"⟩,
          [⟨"0", .R, .normal, 0⟩, ⟨"1", .L, .normal, 1⟩, ⟨"2", .R, .normal, 2⟩]⟩ } 0
      ⟨1, ⟨3, 4, "3/4"⟩,
          [⟨"0", .R, .normal, 0⟩, ⟨"1", .L, .normal, 1⟩, ⟨"2", .R, .normal, 2⟩]⟩
      rfl (by norm_num)).2 hcond
  exact ⟨hcond, h.1, h.2.1⟩

end TempusSonus
